import Mathlib

/-!
Verification development for the provenance-recorder core:
the run catalog (`prov/indexdb.py`), the reference resolver
(`prov/resolve.py`, `prov/runstore.py`), the tag/run disambiguator
(`prov/tagging.py`) and the diff engine (`prov/diff.py`).

The Python code is shallowly embedded: JSON documents become the `JVal`
inductive, Python dicts become association lists (JSON keys are unique,
lookup is first-match), Python exceptions become `Except`, and the
handful of Python string/char predicates used by the code are modelled
over their ASCII behaviour (the code only ever feeds them tokens and
timestamps written by the recorder, and every acceptance decision is
gated by an ASCII-only regular expression, so the extra Unicode
categories Python would accept can never change a verdict reached here).
-/

/-! Python string and character helpers. -/

/-- ASCII whitespace, the characters `str.strip` / `str.isspace` act on
(model restricted to ASCII, see header note). -/
def isWsC (c : Char) : Bool :=
  c == ' ' || c == '\t' || c == '\n' || c == '\r' ||
  c == Char.ofNat 11 || c == Char.ofNat 12

/-- ASCII decimal digit. -/
def isDigitC (c : Char) : Bool :=
  '0' ≤ c && c ≤ '9'

/-- Model of Python `str.strip()`. -/
def pyStrip (s : String) : String :=
  String.mk (((s.data.dropWhile isWsC).reverse.dropWhile isWsC).reverse)

/-- Model of Python `str.isspace`-based membership test used by
`validate_tag_name` (`any(ch.isspace() for ch in tag)`). -/
def hasWs (s : String) : Bool :=
  s.data.any isWsC

/-- Model of Python `str.isdigit()`: non-empty and all digits. -/
def pyIsdigit (s : String) : Bool :=
  !s.data.isEmpty && s.data.all isDigitC

/-- Numeric value of a digit string, as `int(s)` computes it. -/
def digitsToNat (l : List Char) : Nat :=
  l.foldl (fun acc c => acc * 10 + (c.toNat - '0'.toNat)) 0

/-- Whether a string starts with `#` (Python `ref.startswith("#")`). -/
def startsHash (s : String) : Bool :=
  match s.data with
  | c :: _ => c == '#'
  | [] => false

/-- Whether a string ends with `Z` (Python `ts.endswith("Z")`). -/
def endsWithZ (s : String) : Bool :=
  match s.data.getLast? with
  | some 'Z' => true
  | _ => false

/-- Emptiness via the character list (Python `not ts`). -/
def strEmpty (s : String) : Bool :=
  s.data.isEmpty

/-- Everything after the first character (Python `ref[1:]`). -/
def strTail (s : String) : String :=
  String.mk s.data.tail

/-! JSON values, modelling the dynamically typed documents the Python
code manipulates. Numbers are modelled as integers (the recorded
documents only carry integral numbers in the fields this core reads). -/

inductive JVal where
  | jnull
  | jbool (b : Bool)
  | jnum (n : Int)
  | jstr (s : String)
  | jarr (xs : List JVal)
  | jobj (kvs : List (String × JVal))

/-- Structural equality of JSON values, modelling Python `==` / `!=` on
the documents this core reads (the cross-type numeric coercions of
Python equality never arise between recorded documents' field values of
the same key). -/
def jeq : JVal → JVal → Bool
  | .jnull, .jnull => true
  | .jbool a, .jbool b => a == b
  | .jnum a, .jnum b => a == b
  | .jstr a, .jstr b => a == b
  | .jarr [], .jarr [] => true
  | .jarr (x :: xs), .jarr (y :: ys) => jeq x y && jeq (.jarr xs) (.jarr ys)
  | .jobj [], .jobj [] => true
  | .jobj ((k, v) :: t), .jobj ((k', v') :: t') =>
      k == k' && jeq v v' && jeq (.jobj t) (.jobj t')
  | _, _ => false

/-- Python truthiness of a JSON value (`if not p`, `m or {}`, ...). -/
def jtruthy : JVal → Bool
  | .jnull => false
  | .jbool b => b
  | .jnum n => n != 0
  | .jstr s => !s.isEmpty
  | .jarr xs => !xs.isEmpty
  | .jobj kvs => !kvs.isEmpty

/-- Dict lookup, `d.get(k)`: first match in the association list
(JSON object keys are unique, so first-match agrees with dict lookup). -/
def jget (kvs : List (String × JVal)) (k : String) : Option JVal :=
  match kvs with
  | [] => none
  | (k', v) :: t => if k' == k then some v else jget t k

/-- Structural size of a JSON value, used as recursion fuel for
`pyRepr`. -/
def jsize : JVal → Nat
  | .jnull | .jbool _ | .jnum _ | .jstr _ => 1
  | .jarr [] => 1
  | .jarr (x :: xs) => jsize x + jsize (.jarr xs)
  | .jobj [] => 1
  | .jobj ((_, v) :: t) => jsize v + jsize (.jobj t)

/-- Fuel-indexed rendering used by `pyRepr`; the fuel is always
instantiated above the structural depth of the value, so the `0` case is
unreachable. -/
def pyReprF : Nat → JVal → String
  | 0, _ => ""
  | _ + 1, .jnull => "None"
  | _ + 1, .jbool b => if b then "True" else "False"
  | _ + 1, .jnum n => toString n
  | _ + 1, .jstr s => "\x27" ++ s ++ "\x27"
  | fuel + 1, .jarr xs =>
      "[" ++ ", ".intercalate (xs.map (pyReprF fuel)) ++ "]"
  | fuel + 1, .jobj kvs =>
      "\x7b" ++
        ", ".intercalate
          (kvs.map (fun kv => "\x27" ++ kv.1 ++ "\x27: " ++ pyReprF fuel kv.2)) ++
      "\x7d"

/-- Model of Python `repr` on JSON-shaped values. -/
def pyRepr (v : JVal) : String :=
  pyReprF (jsize v) v

/-- Model of Python `str()` on JSON-shaped values: strings render
bare, everything else as its `repr`. -/
def pyStr : JVal → String
  | .jstr s => s
  | v => pyRepr v

/-! Timestamp parsing, modelling `indexdb._parse_ts`.

Timestamps are mapped to microseconds since the Unix epoch in the
proleptic Gregorian calendar, exactly how CPython's
`datetime.timestamp()` evaluates the instants this parser accepts.
The `...Z` branch models `strptime(ts, "%Y-%m-%dT%H:%M:%SZ")`; the
other branch models `datetime.fromisoformat` on the common
`YYYY-MM-DD[ (T| )HH:MM[:SS[.ffffff]][±HH:MM]]` shapes (naive
timestamps take the host timezone in Python; the model fixes that
offset to zero, which shifts the numeric value but not the ordering or
parsability facts the claims are about). -/

def isLeapYear (y : Nat) : Bool :=
  (y % 4 == 0 && y % 100 != 0) || y % 400 == 0

def daysInMonth (y m : Nat) : Nat :=
  if m == 2 then (if isLeapYear y then 29 else 28)
  else if m == 4 || m == 6 || m == 9 || m == 11 then 30
  else 31

/-- Days in all full years before `year` (proleptic Gregorian,
year 1 is the first valid year, as in CPython's `datetime`). -/
def daysBeforeYear (year : Nat) : Nat :=
  let y := year - 1
  365 * y + y / 4 - y / 100 + y / 400

/-- Days in the full months of year `y` before month `m` (1-based). -/
def daysBeforeMonth (y m : Nat) : Nat :=
  (List.range (m - 1)).foldl (fun acc i => acc + daysInMonth y (i + 1)) 0

/-- Proleptic-Gregorian ordinal of a date (0001-01-01 is day 1),
as `datetime.toordinal`. -/
def toOrdinalDay (y m d : Nat) : Nat :=
  daysBeforeYear y + daysBeforeMonth y m + d

/-- Epoch instant in microseconds for validated date/time fields with a
UTC-offset in minutes. The Unix epoch 1970-01-01 has ordinal 719163. -/
def tsMicros (y m d hh mi ss : Nat) (microFrac : Nat) (offMinutes : Int) : Int :=
  (((toOrdinalDay y m d : Int) - 719163) * 86400
    + (hh : Int) * 3600 + (mi : Int) * 60 + (ss : Int)
    - offMinutes * 60) * 1000000 + (microFrac : Int)

/-- Range validation performed by the `datetime` constructor. -/
def validDateTime (y m d hh mi ss : Nat) : Bool :=
  1 ≤ y && y ≤ 9999 && 1 ≤ m && m ≤ 12 && 1 ≤ d && d ≤ daysInMonth y m &&
  hh ≤ 23 && mi ≤ 59 && ss ≤ 59

/-- Consume exactly `n` digits, returning their value and the rest. -/
def takeDigitsExact (n : Nat) (cs : List Char) : Option (Nat × List Char) :=
  match n, cs with
  | 0, rest => some (0, rest)
  | _ + 1, [] => none
  | k + 1, c :: rest =>
      if isDigitC c then
        match takeDigitsExact k rest with
        | some (v, r) => some ((c.toNat - '0'.toNat) * 10 ^ k + v, r)
        | none => none
      else none

/-- Consume one expected character. -/
def expectChar (c : Char) (cs : List Char) : Option (List Char) :=
  match cs with
  | c' :: rest => if c' == c then some rest else none
  | [] => none

/-- Greedily consume up to `maxN` digits (at least one). -/
def takeDigitsUpTo (maxN : Nat) (cs : List Char) : Option (Nat × Nat × List Char) :=
  match maxN, cs with
  | 0, rest => some (0, 0, rest)
  | _ + 1, [] => none
  | k + 1, c :: rest =>
      if isDigitC c then
        match takeDigitsUpTo k rest with
        | some (cnt, v, r) => some (cnt + 1, (c.toNat - '0'.toNat) * 10 ^ cnt + v, r)
        | none => some (1, c.toNat - '0'.toNat, rest)
      else none

/-- The `strptime(ts, "%Y-%m-%dT%H:%M:%SZ")` branch of `_parse_ts`
(value in epoch microseconds, UTC). -/
def strptimeZ (s : String) : Option Int :=
  match takeDigitsUpTo 4 s.data with
  | none => none
  | some (_, y, r1) =>
    match expectChar '-' r1 with
    | none => none
    | some r2 =>
      match takeDigitsUpTo 2 r2 with
      | none => none
      | some (_, m, r3) =>
        match expectChar '-' r3 with
        | none => none
        | some r4 =>
          match takeDigitsUpTo 2 r4 with
          | none => none
          | some (_, d, r5) =>
            match expectChar 'T' r5 with
            | none => none
            | some r6 =>
              match takeDigitsUpTo 2 r6 with
              | none => none
              | some (_, hh, r7) =>
                match expectChar ':' r7 with
                | none => none
                | some r8 =>
                  match takeDigitsUpTo 2 r8 with
                  | none => none
                  | some (_, mi, r9) =>
                    match expectChar ':' r9 with
                    | none => none
                    | some r10 =>
                      match takeDigitsUpTo 2 r10 with
                      | none => none
                      | some (_, ss, r11) =>
                        match expectChar 'Z' r11 with
                        | none => none
                        | some r12 =>
                          if r12 = [] && validDateTime y m d hh mi ss then
                            some (tsMicros y m d hh mi ss 0 0)
                          else none

/-- Optional time-of-day suffix of an ISO string:
`HH:MM[:SS[.ffffff]][±HH:MM]`, after the date and separator. -/
def parseIsoTime (y m d : Nat) (cs : List Char) : Option Int :=
  match takeDigitsExact 2 cs with
  | none => none
  | some (hh, r1) =>
    match expectChar ':' r1 with
    | none => none
    | some r2 =>
      match takeDigitsExact 2 r2 with
      | none => none
      | some (mi, r3) =>
        let withSec : Nat × Nat × List Char :=
          match r3 with
          | ':' :: r4 =>
            match takeDigitsExact 2 r4 with
            | some (ss, r5) =>
              match r5 with
              | '.' :: r6 =>
                match takeDigitsUpTo 6 r6 with
                | some (cnt, f, r7) => (ss, f * 10 ^ (6 - cnt), r7)
                | none => (ss, 0, '.' :: r6)
              | _ => (ss, 0, r5)
            | none => (0, 0, r3)
          | _ => (0, 0, r3)
        match withSec with
        | (ss, frac, r8) =>
          match r8 with
          | [] =>
            if validDateTime y m d hh mi ss then
              some (tsMicros y m d hh mi ss frac 0)
            else none
          | sign :: r9 =>
            if sign == '+' || sign == '-' then
              match takeDigitsExact 2 r9 with
              | none => none
              | some (oh, r10) =>
                match expectChar ':' r10 with
                | none => none
                | some r11 =>
                  match takeDigitsExact 2 r11 with
                  | none => none
                  | some (om, r12) =>
                    if r12 = [] && validDateTime y m d hh mi ss && oh ≤ 23 && om ≤ 59 then
                      let off : Int := (oh : Int) * 60 + (om : Int)
                      some (tsMicros y m d hh mi ss frac (if sign == '-' then -off else off))
                    else none
            else none

/-- The `datetime.fromisoformat(ts).timestamp()` branch of `_parse_ts`. -/
def parseIsoTs (s : String) : Option Int :=
  match takeDigitsExact 4 s.data with
  | none => none
  | some (y, r1) =>
    match expectChar '-' r1 with
    | none => none
    | some r2 =>
      match takeDigitsExact 2 r2 with
      | none => none
      | some (m, r3) =>
        match expectChar '-' r3 with
        | none => none
        | some r4 =>
          match takeDigitsExact 2 r4 with
          | none => none
          | some (d, r5) =>
            match r5 with
            | [] => if validDateTime y m d 0 0 0 then some (tsMicros y m d 0 0 0 0 0) else none
            | sep :: rest =>
              if sep == 'T' || sep == ' ' then parseIsoTime y m d rest
              else none

/-- Model of `indexdb._parse_ts` as a partial function: `none` is the
`ValueError` the Python function raises on unparsable input. The input
is stringified and stripped first, exactly as in the source. -/
def parseTs (v : JVal) : Option Int :=
  let t := pyStrip (pyStr v)
  if strEmpty t then none
  else if endsWithZ t then strptimeZ t
  else parseIsoTs t

/-! Stable sorting, modelling Python `list.sort(key=...)` (Timsort is
stable; equal keys keep their original relative order). Insertion
before the first element the new element is `le`-below-or-equal-to
realises exactly that order. -/

def insortBy (le : α → α → Bool) (x : α) : List α → List α
  | [] => [x]
  | y :: ys => if le x y then x :: y :: ys else y :: insortBy le x ys

def sortBy (le : α → α → Bool) : List α → List α
  | [] => []
  | x :: xs => insortBy le x (sortBy le xs)

/-! The run catalog, modelling `indexdb.IndexDB`. `load_index`
guarantees `runs` is a list and `tags` is a string-to-string mapping
(it stringifies keys and values and fails hard on other shapes), so the
aggregate is modelled with those two fields directly. Individual run
entries can still be arbitrarily malformed JSON values. -/

structure IndexDB where
  runs : List JVal
  tags : List (String × String)

/-- First-match lookup in the tag map (Python dict lookup; keys are
unique in a dict, so first-match agrees with it). -/
def lookupTag (tags : List (String × String)) (k : String) : Option String :=
  match tags with
  | [] => none
  | (k', v) :: t => if k' == k then some v else lookupTag t k

/-- One iteration of the `ordered_run_ids` collection loop: `none`
exactly when the entry is skipped (not a dict, falsy `run_id` or
`timestamp`, or `_parse_ts` raising). -/
def toSortable (r : JVal) : Option (Int × String) :=
  match r with
  | .jobj kvs =>
      let runId := (jget kvs "run_id").getD .jnull
      let ts := (jget kvs "timestamp").getD .jnull
      if jtruthy runId && jtruthy ts then
        match parseTs ts with
        | some t => some (t, pyStr runId)
        | none => none
      else none
  | _ => none

/-- Key ordering used by `sortable.sort(key=lambda x: x[0])`: compare
parsed timestamps only (the sort is stable, so equal timestamps keep
their original relative order). -/
def leTsKey (p q : Int × String) : Bool :=
  p.1 ≤ q.1

/-- The skip-or-keep pass over the raw entries. -/
def sortableEntries (runs : List JVal) : List (Int × String) :=
  runs.filterMap toSortable

/-- Model of `IndexDB.ordered_run_ids`. -/
def orderedRunIds (idx : IndexDB) : List String :=
  (sortBy leTsKey (sortableEntries idx.runs)).map Prod.snd

/-- Model of `IndexDB.resolve_ordinal` (1-based, oldest = 1); the
`Except` error is the `ValueError` raised on an out-of-range index. The
source indexes `ordered[n - 1]` under the bounds guard, modelled with a
defaulted index that the guard keeps honest. -/
def resolveOrdinal (idx : IndexDB) (n : Int) : Except String String :=
  let ordered := orderedRunIds idx
  if n < 1 || n > (ordered.length : Int) then
    .error ("Run index " ++ toString n ++ " out of range (1.." ++
      toString ordered.length ++ ").")
  else
    .ok (ordered.getD (n - 1).toNat "")

/-- The compiled regular expression `^[A-Za-z0-9][A-Za-z0-9._-]*$`. -/
def tagReMatch (s : String) : Bool :=
  match s.data with
  | [] => false
  | c :: cs =>
      (c.isAlpha || isDigitC c) &&
      cs.all (fun d => d.isAlpha || isDigitC d || d == '.' || d == '_' || d == '-')

/-- Model of `indexdb.validate_tag_name`; errors are the raised
`ValueError` messages. -/
def validateTagName (tag : String) : Except String Unit :=
  let t := pyStrip tag
  if t != tag then .error "Tag must not have leading/trailing whitespace."
  else if hasWs tag then .error "Tag must not contain whitespace."
  else if pyIsdigit tag then .error "Tag must not be all digits (would collide with ordinals)."
  else if startsHash tag && pyIsdigit (strTail tag) then
    .error "Tag must not look like an ordinal (e.g. \x27#3\x27)."
  else if !tagReMatch tag then .error "Tag must match: [A-Za-z0-9][A-Za-z0-9._-]*"
  else .ok ()

/-- Replace-or-append assignment `tags[tag] = run_id` on the
association-list model of the dict. -/
def setAssoc (tags : List (String × String)) (k v : String) : List (String × String) :=
  match tags with
  | [] => [(k, v)]
  | (k', v') :: t => if k' == k then (k, v) :: t else (k', v') :: setAssoc t k v

/-- Key order used by `dict(sorted(tags.items(), key=lambda kv: kv[0]))`. -/
def leTagKey (p q : String × String) : Bool :=
  p.1 ≤ q.1

/-- Model of `IndexDB.set_tag`: validate, refuse to overwrite without
`force`, then store the tag map in sorted key order. -/
def setTag (idx : IndexDB) (tag runId : String) (force : Bool) :
    Except String (List (String × String)) :=
  match validateTagName tag with
  | .error e => .error e
  | .ok _ =>
      if (lookupTag idx.tags tag).isSome && !force then
        .error ("Tag \x27" ++ tag ++ "\x27 already exists (use --force to overwrite).")
      else
        .ok (sortBy leTagKey (setAssoc idx.tags tag runId))

/-! The single-token reference resolver, `resolve.resolve_user_ref`
(textually identical to `runstore.resolve_ref`). The filesystem is a
parameter: `fsx ref` models `Path(ref).exists()`. -/

def resolveUserRef (fsx : String → Bool) (idx : IndexDB) (ref : String) :
    Except String String :=
  let r := pyStrip ref
  if fsx r then .ok r
  else
    match lookupTag idx.tags r with
    | some rid => .ok rid
    | none =>
        if startsHash r && pyIsdigit (strTail r) then
          resolveOrdinal idx ((digitsToNat (strTail r).data : Nat) : Int)
        else if pyIsdigit r then
          resolveOrdinal idx ((digitsToNat r.data : Nat) : Int)
        else .ok r

/-! The diff engine, modelling `prov/diff.py`. A loaded run's `data`
dict is the `RunData` association list. The printing half of
`diff_runs` is presentation; the embedded `diffRunsResult` is the pure
computation of every comparison field and of the `summary` the function
builds (the `result_obj`). -/

def RunData : Type := List (String × JVal)

/-- Well-shapedness of a run document for the diff engine: wherever the
source would call `.items()` / `.get()` / iterate, the value (when
truthy) has the container shape the source assumes; on other shapes the
Python code raises instead of diffing, and the theorems below restrict
to well-shaped runs. -/
def dictish (o : Option JVal) : Bool :=
  match o with
  | none => true
  | some (.jobj _) => true
  | some v => !jtruthy v

def listish (o : Option JVal) : Bool :=
  match o with
  | none => true
  | some (.jarr _) => true
  | some v => !jtruthy v

def runWF (d : RunData) : Bool :=
  dictish (jget d "inputs") && dictish (jget d "outputs") &&
  dictish (jget d "environment") && dictish (jget d "git") &&
  listish (jget d "warnings")

/-- Model of `diff._fingerprint_map`: reduce `inputs`/`outputs` to a
path-to-hash mapping, keeping only dict-shaped entries carrying a
`hash` key. A falsy or absent container is the empty mapping (`or {}`);
a truthy non-dict raises in the source (see `runWF`). -/
def fingerprintMap (d : RunData) (key : String) : List (String × String) :=
  match jget d key with
  | some (.jobj kvs) =>
      kvs.filterMap (fun kv =>
        match kv.2 with
        | .jobj meta =>
            match jget meta "hash" with
            | some h => some (kv.1, pyStr h)
            | none => none
        | _ => none)
  | _ => []

def keysOf (m : List (String × String)) : List String :=
  m.map Prod.fst

def lookupStr (m : List (String × String)) (k : String) : Option String :=
  match m with
  | [] => none
  | (k', v) :: t => if k' == k then some v else lookupStr t k

/-- String ordering used by Python `sorted` on path lists. -/
def leStr (a b : String) : Bool :=
  a ≤ b

/-- Key deduplication, realising the `set(...)` view of dict key lists
(the order is irrelevant: every use is sorted afterwards). -/
def dedupKeys : List String → List String
  | [] => []
  | k :: t => if t.contains k then dedupKeys t else k :: dedupKeys t

structure HashDiff where
  added : List String
  removed : List String
  changed : List String
  unchanged : List String

/-- Model of `diff._diff_hashmaps`: set differences and intersection of
the key sets, sorted; common keys split by hash equality. -/
def diffHashmaps (a b : List (String × String)) : HashDiff :=
  let aKeys := keysOf a
  let bKeys := keysOf b
  let added := sortBy leStr ((dedupKeys bKeys).filter (fun k => !aKeys.contains k))
  let removed := sortBy leStr ((dedupKeys aKeys).filter (fun k => !bKeys.contains k))
  let common := sortBy leStr ((dedupKeys aKeys).filter (fun k => bKeys.contains k))
  { added := added
    removed := removed
    changed := common.filter (fun k => !(lookupStr a k == lookupStr b k))
    unchanged := common.filter (fun k => lookupStr a k == lookupStr b k) }

/-- Model of `diff._params_fingerprint`: `None` unless `params` is a
truthy dict carrying `hash`. -/
def paramsFingerprint (d : RunData) : Option String :=
  match jget d "params" with
  | none => none
  | some p =>
      if !jtruthy p then none
      else
        match p with
        | .jobj kvs =>
            match jget kvs "hash" with
            | some h => some (pyStr h)
            | none => none
        | _ => none

/-- Model of `diff._env_fingerprint`. -/
def envFingerprint (d : RunData) : String × String :=
  let env : List (String × JVal) :=
    match jget d "environment" with
    | some (.jobj kvs) => kvs
    | _ => []
  (((jget env "python_version").map pyStr).getD "",
   ((jget env "platform").map pyStr).getD "")

/-- Model of `diff._warnings_list`: normalize each warning to a message
string (`message`, else `code`, else the generic textual form). -/
def warningsList (d : RunData) : List String :=
  let w : List JVal :=
    match jget d "warnings" with
    | some (.jarr xs) => xs
    | _ => []
  w.map (fun item =>
    match item with
    | .jstr s => s
    | .jobj kvs =>
        let m1 := (jget kvs "message").getD .jnull
        if jtruthy m1 then pyStr m1
        else
          let m2 := (jget kvs "code").getD .jnull
          if jtruthy m2 then pyStr m2 else pyStr (.jobj kvs)
    | v => pyStr v)

/-- Git fingerprint record, modelling the dict built by
`diff._git_fingerprint`. In the not-recorded case the source dict has
only the `recorded` key; the placeholder fields here are never read,
because `_git_changed` consults `recorded` first. -/
structure GitFp where
  recorded : Bool
  is_repo : Bool
  commit : JVal
  describe : JVal
  branch : JVal
  detached : JVal
  dirty : JVal
  untracked : JVal

/-- Model of `diff._git_fingerprint`. With the `git` key present but
falsy, `g` is `{}` and the run still counts as recorded. -/
def gitFingerprint (d : RunData) : GitFp :=
  match jget d "git" with
  | none =>
      { recorded := false, is_repo := false, commit := .jnull, describe := .jnull,
        branch := .jnull, detached := .jnull, dirty := .jnull, untracked := .jnull }
  | some g =>
      let kvs : List (String × JVal) :=
        match g with
        | .jobj kvs => kvs
        | _ => []
      { recorded := true
        is_repo := match jget kvs "is_repo" with
          | some v => jtruthy v
          | none => false
        commit := (jget kvs "commit").getD .jnull
        describe := (jget kvs "describe").getD .jnull
        branch := (jget kvs "branch").getD .jnull
        detached := (jget kvs "detached").getD .jnull
        dirty := (jget kvs "dirty").getD .jnull
        untracked := (jget kvs "untracked").getD .jnull }

/-- Model of `diff._git_changed`: missing-on-either-side is never a
diff; differing repo status is a diff by itself; two non-repos are
equal; two repos compare field by field with one reason per mismatch. -/
def gitChangedF (a b : GitFp) : Bool × List String :=
  if !a.recorded || !b.recorded then
    (false,
      [if !a.recorded && !b.recorded then "not recorded (A, B)"
       else if !a.recorded then "not recorded (A)"
       else "not recorded (B)"])
  else if a.is_repo != b.is_repo then (true, ["repo status changed"])
  else if !a.is_repo && !b.is_repo then (false, [])
  else
    let rs :=
      (if jeq a.commit b.commit then [] else ["commit changed"]) ++
      (if jeq a.branch b.branch then [] else ["branch changed"]) ++
      (if jeq a.detached b.detached then [] else ["detached changed"]) ++
      (if jeq a.dirty b.dirty then [] else ["dirty changed"]) ++
      (if jeq a.untracked b.untracked then [] else ["untracked changed"])
    (!rs.isEmpty, rs)

/-- Model of `diff._truth_changed`. -/
def truthChangedF (diffInputs : HashDiff) (paramsChanged : Bool) : Bool :=
  !diffInputs.added.isEmpty || !diffInputs.removed.isEmpty ||
  !diffInputs.changed.isEmpty || paramsChanged

/-- Model of `diff._any_changed`. -/
def anyChangedF (truth : Bool) (diffOutputs : HashDiff)
    (envChanged warningsChanged gitChangedB : Bool) : Bool :=
  truth || !diffOutputs.added.isEmpty || !diffOutputs.removed.isEmpty ||
  !diffOutputs.changed.isEmpty || envChanged || warningsChanged || gitChangedB

/-- All comparison fields `diff_runs` computes and reports. -/
structure DiffResult where
  inputs : HashDiff
  outputs : HashDiff
  paramsA : Option String
  paramsB : Option String
  paramsChanged : Bool
  envA : String × String
  envB : String × String
  envChanged : Bool
  warnA : List String
  warnB : List String
  warningsChanged : Bool
  gitChanged : Bool
  gitReasons : List String
  truthChanged : Bool
  anyChanged : Bool

/-- The pure comparison core of `diff.diff_runs` on two loaded run
documents. -/
def diffRunsResult (da db : RunData) : DiffResult :=
  let diffInputs := diffHashmaps (fingerprintMap da "inputs") (fingerprintMap db "inputs")
  let diffOutputs := diffHashmaps (fingerprintMap da "outputs") (fingerprintMap db "outputs")
  let aParams := paramsFingerprint da
  let bParams := paramsFingerprint db
  let paramsChanged := !(aParams == bParams)
  let aEnv := envFingerprint da
  let bEnv := envFingerprint db
  let envChanged := !(aEnv == bEnv)
  let aWarn := warningsList da
  let bWarn := warningsList db
  let warningsChanged := !(aWarn == bWarn)
  let git := gitChangedF (gitFingerprint da) (gitFingerprint db)
  let truth := truthChangedF diffInputs paramsChanged
  { inputs := diffInputs
    outputs := diffOutputs
    paramsA := aParams
    paramsB := bParams
    paramsChanged := paramsChanged
    envA := aEnv
    envB := bEnv
    envChanged := envChanged
    warnA := aWarn
    warnB := bWarn
    warningsChanged := warningsChanged
    gitChanged := git.1
    gitReasons := git.2
    truthChanged := truth
    anyChanged := anyChangedF truth diffOutputs envChanged warningsChanged git.1 }

/-! The tag/run disambiguator, modelling `prov/tagging.py`. The caller
supplies the predicates (`tag_ok`, `run_ok`) and the existing tag map
is used only through membership, so both are modelled as Boolean
predicates on tokens. -/

/-- Model of `tagging.looks_like_run_id`: full match of
`\d{4}-\d{2}-\d{2}T\d{2}-\d{2}-\d{2}Z_[A-Za-z0-9]+` on the stripped
token. -/
def looksLikeRunId (x : String) : Bool :=
  let cs := (pyStrip x).data
  match takeDigitsExact 4 cs with
  | none => false
  | some (_, r1) =>
    match expectChar '-' r1 with
    | none => false
    | some r2 =>
      match takeDigitsExact 2 r2 with
      | none => false
      | some (_, r3) =>
        match expectChar '-' r3 with
        | none => false
        | some r4 =>
          match takeDigitsExact 2 r4 with
          | none => false
          | some (_, r5) =>
            match expectChar 'T' r5 with
            | none => false
            | some r6 =>
              match takeDigitsExact 2 r6 with
              | none => false
              | some (_, r7) =>
                match expectChar '-' r7 with
                | none => false
                | some r8 =>
                  match takeDigitsExact 2 r8 with
                  | none => false
                  | some (_, r9) =>
                    match expectChar '-' r9 with
                    | none => false
                    | some r10 =>
                      match takeDigitsExact 2 r10 with
                      | none => false
                      | some (_, r11) =>
                        match expectChar 'Z' r11 with
                        | none => false
                        | some r12 =>
                          match expectChar '_' r12 with
                          | none => false
                          | some r13 =>
                            !r13.isEmpty &&
                            r13.all (fun c => c.isAlpha || isDigitC c)

/-- Model of `tagging.looks_like_ordinal`. -/
def looksLikeOrdinal (x : String) : Bool :=
  let s := pyStrip x
  pyIsdigit s || (startsHash s && pyIsdigit (strTail s))

/-- Model of `tagging.ArgInfo` (all fields computed over the stripped
token, as `_info` does). -/
structure ArgInfo where
  raw : String
  is_ordinal : Bool
  looks_like_run_id : Bool
  has_path_sep : Bool
  tag_ok : Bool
  run_ok : Bool
  existing_tag : Bool

/-- Model of `ArgInfo.explicit_runish`. -/
def ArgInfo.explicit_runish (i : ArgInfo) : Bool :=
  i.is_ordinal || i.looks_like_run_id || i.has_path_sep

/-- Model of the local `_info` constructor inside `resolve_tag_args`. -/
def mkArgInfo (existingTags tagOk runOk : String → Bool) (x : String) : ArgInfo :=
  let s := pyStrip x
  { raw := s
    is_ordinal := looksLikeOrdinal s
    looks_like_run_id := looksLikeRunId s
    has_path_sep := s.data.contains '/' || s.data.contains '\\'
    tag_ok := tagOk s
    run_ok := runOk s
    existing_tag := existingTags s }

/-- The disambiguator's error variants (`TagAmbiguity`, `TagTwoRuns`,
`TagNoRun`). -/
inductive TagErr where
  | ambiguity (msg : String)
  | twoRuns (msg : String)
  | noRun (msg : String)

/-- Model of `tagging._ambig_msg`. -/
def ambigMsg (existing other : String) : String :=
  "Ambiguous: \x27" ++ existing ++ "\x27 is an existing tag, and \x27" ++ other ++
  "\x27 could be a tag name or a run reference.\n\n" ++
  "Be explicit:\n" ++
  "  prov tag " ++ existing ++ " #<N>\n" ++
  "  prov tag " ++ existing ++ " <run_id>\n" ++
  "  prov tag " ++ other ++ " " ++ existing ++ "    # if you meant to create/update tag \x27" ++
  other ++ "\x27 instead\n"

def twoRunsMsg : String :=
  "Both arguments resolve to runs; I need a tag name and a run reference.\n\n" ++
  "Examples:\n" ++
  "  prov tag baseline #2\n" ++
  "  prov tag baseline 2026-02-11T16-08-36Z_27971d\n"

def noRunMsg : String :=
  "Could not resolve a run from either argument. " ++
  "Provide a run ref (id/tag/ordinal/path) and a tag name.\n" ++
  "Examples:\n" ++
  "  prov tag baseline #2\n" ++
  "  prov tag baseline 2026-02-09T14-06-45Z_ab12cd\n"

/-- Model of `tagging.resolve_tag_args`: decide `(run_ref, tag_name)`
from two positional tokens, rules 1-7 in source order. -/
def resolveTagArgs (existingTags tagOk runOk : String → Bool) (a b : String) :
    Except TagErr (String × String) :=
  let A := mkArgInfo existingTags tagOk runOk a
  let B := mkArgInfo existingTags tagOk runOk b
  if A.is_ordinal && !B.is_ordinal then .ok (A.raw, B.raw)
  else if B.is_ordinal && !A.is_ordinal then .ok (B.raw, A.raw)
  else if A.existing_tag && B.run_ok then
    if B.explicit_runish then .ok (B.raw, A.raw)
    else .error (.ambiguity (ambigMsg A.raw B.raw))
  else if B.existing_tag && A.run_ok then
    if A.explicit_runish then .ok (A.raw, B.raw)
    else .error (.ambiguity (ambigMsg B.raw A.raw))
  else if A.existing_tag && B.tag_ok && !B.run_ok && !B.explicit_runish then
    .error (.ambiguity (ambigMsg A.raw B.raw))
  else if B.existing_tag && A.tag_ok && !A.run_ok && !A.explicit_runish then
    .error (.ambiguity (ambigMsg B.raw A.raw))
  else if A.run_ok && B.tag_ok && !B.run_ok then .ok (A.raw, B.raw)
  else if B.run_ok && A.tag_ok && !A.run_ok then .ok (B.raw, A.raw)
  else if A.run_ok && B.run_ok then .error (.twoRuns twoRunsMsg)
  else if !A.run_ok && !B.run_ok then .error (.noRun noRunMsg)
  else .ok (A.raw, B.raw)

/-! Pair resolution and path-based run identity.

Paths are modelled as lists of components of an absolute, normalized
POSIX path (the root is `[]`), so `Path.resolve()` is the identity,
`Path.parent` drops the last component (the root is its own parent)
and `Path.name` is the last component. The filesystem enters as two
Boolean predicates. -/

structure Fs where
  present : List String → Bool
  isFileAt : List String → Bool

/-- Split a character list at `/` separators. -/
def splitSlash : List Char → List Char → List String
  | [], acc => [String.mk acc.reverse]
  | '/' :: t, acc => String.mk acc.reverse :: splitSlash t []
  | c :: t, acc => splitSlash t (c :: acc)

/-- Components of a path-shaped string (absolute, normalized; empty
segments collapse as `pathlib` does). -/
def pathOfString (s : String) : List String :=
  (splitSlash s.data []).filter (fun seg => seg ≠ "")

/-- Python `Path(s).name`. -/
def pathName (s : String) : String :=
  ((pathOfString s).getLast?).getD ""

/-- Whether the string names an existing filesystem entry
(`Path(ref).exists()`). -/
def strExists (fs : Fs) (s : String) : Bool :=
  fs.present (pathOfString s)

/-- The parent-walking loop of `runstore._find_run_dir`: climb until
the immediate parent is the runs root (`some cur`), or the filesystem
root is reached (`none`, the loop's `break`). The fuel starts above
the path length, so the `0` case is unreachable. -/
def findRunDirLoop (runsRoot : List String) : Nat → List String → Option (List String)
  | 0, _ => none
  | fuel + 1, cur =>
      if cur.dropLast = runsRoot then some cur
      else if cur.isEmpty then none
      else findRunDirLoop runsRoot fuel cur.dropLast

/-- Model of `runstore._find_run_dir`. After the loop breaks at the
root, the source returns `cur` (the root) when it exists, else the
original fallback. -/
def findRunDir (fs : Fs) (provDir : List String) (p : List String) : List String :=
  let runsRoot := provDir ++ ["runs"]
  let cur0 := if fs.isFileAt p then p.dropLast else p
  match findRunDirLoop runsRoot (cur0.length + 1) cur0 with
  | some d => d
  | none =>
      if fs.present [] then []
      else if fs.isFileAt p then p.dropLast else p

/-- Model of `runstore.run_id_from_ref`: resolve the token, then for
path-shaped results walk up to the run directory and take its name. -/
def runIdFromRef (fs : Fs) (provDir : List String) (idx : IndexDB) (ref : String) :
    Except String String :=
  match resolveUserRef (strExists fs) idx ref with
  | .error e => .error e
  | .ok resolved =>
      if strExists fs resolved then
        .ok (((findRunDir fs provDir (pathOfString resolved)).getLast?).getD "")
      else .ok resolved

/-- Model of `resolve.resolve_run_pair` (the variant `cli.py` imports):
resolve the intended `(A, B)` pair from zero, one or two user tokens.
The one-token branch guards against self-diff by comparing
`Path(a_resolved).name` (when the resolved token exists on disk) or the
resolved token itself against the latest run id. -/
def resolveRunPair (fs : Fs) (idx : IndexDB) (runA runB : Option String) :
    Except String (String × String) :=
  let ordered := orderedRunIds idx
  let needTwo := "Need at least two recorded runs to diff. Run `prov record` first."
  match runA, runB with
  | none, none =>
      if ordered.length < 2 then .error needTwo
      else .ok (ordered.getD (ordered.length - 2) "", ordered.getD (ordered.length - 1) "")
  | some a, none =>
      if ordered.length < 2 then .error needTwo
      else
        let latest := ordered.getD (ordered.length - 1) ""
        let prev := ordered.getD (ordered.length - 2) ""
        match resolveUserRef (strExists fs) idx a with
        | .error e => .error e
        | .ok aResolved =>
            let aId := if strExists fs aResolved then pathName aResolved else aResolved
            if aId = latest then .ok (prev, latest)
            else .ok (aResolved, latest)
  | some a, some b =>
      match resolveUserRef (strExists fs) idx a with
      | .error e => .error e
      | .ok ra =>
          match resolveUserRef (strExists fs) idx b with
          | .error e => .error e
          | .ok rb => .ok (ra, rb)
  | none, some _ =>
      .error "assert run_a is not None and run_b is not None"

/-! Shared concrete fixtures for witnesses and counterexamples. -/

/-- A two-run catalog (oldest first: `runA1`, then `runB2`). -/
def runA1 : String := "2026-02-09T14-06-45Z_aaaaaa"

def runB2 : String := "2026-02-11T16-08-36Z_bbbbbb"

def cat2 : IndexDB :=
  ⟨[.jobj [("run_id", .jstr runA1), ("timestamp", .jstr "2026-02-09T14:06:45Z")],
    .jobj [("run_id", .jstr runB2), ("timestamp", .jstr "2026-02-11T16:08:36Z")]], []⟩

/-- Filesystem predicate for the C6 witness: exactly one path exists. -/
def fsx6 : String → Bool := fun s => s == "/data/f.txt"

/-- Catalog for the C6 witness: the two runs of `cat2` plus one tag. -/
def idx6 : IndexDB := ⟨cat2.runs, [("baseline", runA1)]⟩

/-! Claim C4. -/

/-- Run-id-shaped token used in the C4 scenarios. -/
def rid4 : String := "2026-02-09T14-06-45Z_ab12cd"

/-- Tag-membership predicate where both `foo` and the run-id-shaped
token are existing tags (a run-id-shaped name is valid tag grammar, so
nothing prevents this catalog state). -/
def tags4 : String → Bool := fun s => s == "foo" || s == rid4

/-- Predicate constantly true, standing for caller predicates that
accept every token. -/
def allTrue : String → Bool := fun _ => true

/-- Tag-membership predicate where only `foo` is an existing tag. -/
def tags4b : String → Bool := fun s => s == "foo"

/-- Run document without a git snapshot (C5 witness, side A). -/
def dA5 : RunData := [("run_id", .jstr runA1)]

/-- Run document with a git snapshot (C5 witness, side B). -/
def dB5 : RunData :=
  [("git", .jobj [("is_repo", .jbool true), ("commit", .jstr "2222222")])]

/-- Run document used as the C7 witness (inputs, outputs, params,
environment, warnings and git all populated). -/
def d7 : RunData :=
  [("run_id", .jstr runA1),
   ("inputs", .jobj [("in.txt", .jobj [("hash", .jstr "aaa")])]),
   ("outputs", .jobj [("out.txt", .jobj [("hash", .jstr "bbb")])]),
   ("params", .jobj [("hash", .jstr "ppp")]),
   ("environment", .jobj [("python_version", .jstr "3.11.0"), ("platform", .jstr "linux")]),
   ("warnings", .jarr [.jstr "w1", .jobj [("code", .jstr "W2"), ("message", .jstr "m2")]]),
   ("git", .jobj [("is_repo", .jbool true), ("commit", .jstr "1111111")])]

/-! Claim C10. -/

/-- Degenerate shapes of a present `params` value, from the claim's
words: falsy, not a mapping, or a mapping without a `hash` key. -/
def degenBody (v : JVal) : Bool :=
  !jtruthy v ||
  (match v with
   | .jobj kvs => (jget kvs "hash").isNone
   | _ => true)

/-- Specification-side predicate, from the claim's words: the `params`
value is missing, falsy, not a mapping, or a mapping without a `hash`
key. -/
def specParamsDegenerate (d : RunData) : Bool :=
  match jget d "params" with
  | none => true
  | some v => degenBody v

/-- Run without a `params` key (C10 witness). -/
def dA10 : RunData := [("run_id", .jstr runA1)]

/-- Run whose `params` is a mapping without `hash` (C10 witness). -/
def dB10 : RunData := [("params", .jobj [("x", .jstr "1")])]

/-! Claim C1. -/

/-- C1 counterexample: two parsable entries with equal parsed
timestamps, stored as run ids `b` then `a`. The stable sort keeps the
catalog order, so `ordered_run_ids` returns `["b", "a"]`, which is not
lexical order — the claimed lexical tie-break does not hold. -/
def c1ex : IndexDB :=
  ⟨[.jobj [("run_id", .jstr "b"), ("timestamp", .jstr "2026-01-01T00:00:00Z")],
    .jobj [("run_id", .jstr "a"), ("timestamp", .jstr "2026-01-01T00:00:00Z")]], []⟩

/-! Claim C2. -/

/-- Root directory components of the project in the C2 scenario
(`prov_dir` is `/w/.prov`). -/
def provDir2 : List String := ["w", ".prov"]

/-- Path of `run.json` inside the latest run's storage tree. -/
def runJsonPath2 : List String := ["w", ".prov", "runs", runB2, "run.json"]

/-- Filesystem for the C2 scenario: the project tree and the latest
run's `run.json` exist; the `run.json` is a file. -/
def fs2 : Fs :=
  { present := fun p =>
      p == ([] : List String) || p == ["w"] || p == ["w", ".prov"] ||
      p == ["w", ".prov", "runs"] || p == ["w", ".prov", "runs", runA1] ||
      p == ["w", ".prov", "runs", runB2] || p == runJsonPath2
    isFileAt := fun p => p == runJsonPath2 }

/-- The single user token: an existing path pointing inside the latest
run's storage tree. -/
def token2 : String := "/w/.prov/runs/" ++ runB2 ++ "/run.json"

/-- Reflexivity of JSON equality (needed for the diff-idempotence
claim); proved by structural recursion on the value. -/
theorem jeq_refl (v : JVal) : jeq v v = true := by
  match v with
  | .jnull => simp [jeq]
  | .jbool b => simp [jeq]
  | .jnum n => simp [jeq]
  | .jstr s => simp [jeq]
  | .jarr [] => simp [jeq]
  | .jarr (x :: xs) => simp [jeq, jeq_refl x, jeq_refl (.jarr xs)]
  | .jobj [] => simp [jeq]
  | .jobj ((k, w) :: t) => simp [jeq, jeq_refl w, jeq_refl (.jobj t)]

theorem perm_insortBy (le : α → α → Bool) (x : α) (l : List α) :
    List.Perm (insortBy le x l) (x :: l) := by
  induction l with
  | nil => simp [insortBy]
  | cons y ys ih =>
    simp only [insortBy]
    by_cases h : le x y
    · simp [h]
    · simp only [h, if_neg]
      exact (List.Perm.trans (List.Perm.cons y ih) (List.Perm.swap x y ys)).symm.symm

theorem perm_sortBy (le : α → α → Bool) (l : List α) : List.Perm (sortBy le l) l := by
  induction l with
  | nil => simp [sortBy]
  | cons x xs ih =>
    exact List.Perm.trans (perm_insortBy le x (sortBy le xs)) (List.Perm.cons x ih)

theorem pairwise_insortBy (le : α → α → Bool)
    (htot : ∀ a b, le a b = true ∨ le b a = true)
    (htrans : ∀ a b c, le a b = true → le b c = true → le a c = true)
    (x : α) (l : List α)
    (hl : l.Pairwise (fun a b => le a b = true)) :
    (insortBy le x l).Pairwise (fun a b => le a b = true) := by
  induction l with
  | nil => simp [insortBy]
  | cons y ys ih =>
    rcases hl with _ | ⟨hy, hys⟩
    by_cases h : le x y
    · simp only [insortBy, h, if_pos]
      refine List.Pairwise.cons ?_ (List.Pairwise.cons hy hys)
      intro z hz
      rcases List.mem_cons.mp hz with rfl | hz
      · exact h
      · exact htrans x y z h (hy z hz)
    · simp only [insortBy, h, if_neg, Bool.false_eq_true, not_false_iff]
      refine List.Pairwise.cons ?_ (ih hys)
      intro z hz
      have hz' := (perm_insortBy le x ys).mem_iff.mp hz
      rcases List.mem_cons.mp hz' with hzx | hz''
      · rw [hzx]
        rcases htot x y with h' | h'
        · exact absurd h' h
        · exact h'
      · exact hy z hz''

theorem pairwise_sortBy (le : α → α → Bool)
    (htot : ∀ a b, le a b = true ∨ le b a = true)
    (htrans : ∀ a b c, le a b = true → le b c = true → le a c = true)
    (l : List α) :
    (sortBy le l).Pairwise (fun a b => le a b = true) := by
  induction l with
  | nil => simp [sortBy]
  | cons x xs ih => exact pairwise_insortBy le htot htrans x (sortBy le xs) ih

theorem filter_insortBy (le : α → α → Bool) (p : α → Bool) (x : α) (l : List α)
    (hpx : ∀ y, p x = true → p y = true → le x y = true) :
    (insortBy le x l).filter p = if p x then x :: l.filter p else l.filter p := by
  induction l with
  | nil => by_cases h : p x <;> simp [insortBy, h, List.filter]
  | cons y ys ih =>
    by_cases h : le x y
    · simp only [insortBy, h, if_pos]
      by_cases hx : p x <;> simp [List.filter, hx]
    · simp only [insortBy, h, if_neg, Bool.false_eq_true, not_false_iff]
      by_cases hx : p x
      · have hy : p y = false := by
          by_contra hy
          exact h (hpx y hx (Bool.of_not_eq_false hy))
        simp [List.filter, hy, ih, hx]
      · simp only [List.filter]
        rw [ih]
        simp [hx]

/-- Stability of the sort: for any predicate selecting one equivalence
class of keys, sorting does not change the selected subsequence. -/
theorem filter_sortBy (le : α → α → Bool) (p : α → Bool) (l : List α)
    (hp : ∀ x y, p x = true → p y = true → le x y = true) :
    (sortBy le l).filter p = l.filter p := by
  induction l with
  | nil => simp [sortBy]
  | cons x xs ih =>
    simp only [sortBy]
    rw [filter_insortBy le p x (sortBy le xs) (fun y hx hy => hp x y hx hy)]
    by_cases hx : p x <;> simp [List.filter, hx, ih]

/-! Claim C8. -/

/-- C8: for every catalog, `resolve_ordinal n` returns the `n`-th
element (1-based, oldest = 1) of `ordered_run_ids` whenever
`1 ≤ n ≤ N`, and fails with the out-of-range `ValueError` exactly when
`n < 1` or `n > N` — so it fails for `0`, for `N + 1`, and for every
negative `n`. -/
theorem C8_resolve_ordinal (idx : IndexDB) (n : Int) :
    (1 ≤ n → n ≤ ((orderedRunIds idx).length : Int) →
      resolveOrdinal idx n = .ok ((orderedRunIds idx).getD (n - 1).toNat "")) ∧
    (n < 1 ∨ ((orderedRunIds idx).length : Int) < n →
      ∃ e, resolveOrdinal idx n = .error e) := by
  constructor
  · intro h1 h2
    have hc : (decide (n < 1) || decide (n > ((orderedRunIds idx).length : Int))) = false := by
      simp only [Bool.or_eq_false_iff, decide_eq_false_iff_not, not_lt, gt_iff_lt]
      omega
    simp [resolveOrdinal, hc]
  · intro h
    have hc : (decide (n < 1) || decide (n > ((orderedRunIds idx).length : Int))) = true := by
      simp only [Bool.or_eq_true, decide_eq_true_eq, gt_iff_lt]
      omega
    refine ⟨"Run index " ++ toString n ++ " out of range (1.." ++
      toString (orderedRunIds idx).length ++ ").", ?_⟩
    simp [resolveOrdinal, hc]

/-- Witness for C8 on the concrete two-run catalog: ordinal 1 is the
oldest run, while 0, N + 1 = 3 and -5 are out of range. -/
theorem C8_resolve_ordinal_witness :
    resolveOrdinal cat2 1 = .ok runA1 ∧
    (∃ e, resolveOrdinal cat2 0 = .error e) ∧
    (∃ e, resolveOrdinal cat2 3 = .error e) ∧
    (∃ e, resolveOrdinal cat2 (-5) = .error e) := by
  refine ⟨?_, ?_, ?_, ?_⟩
  · rw [(C8_resolve_ordinal cat2 1).1 (by decide) (by decide)]
    rfl
  · exact (C8_resolve_ordinal cat2 0).2 (by decide)
  · exact (C8_resolve_ordinal cat2 3).2 (by decide)
  · exact (C8_resolve_ordinal cat2 (-5)).2 (by decide)

/-! Claim C9. -/

/-- Characters accepted by the tag regular expression are never
whitespace. -/
theorem charClass_not_ws (c : Char)
    (h : (c.isAlpha || isDigitC c || c == '.' || c == '_' || c == '-') = true) :
    isWsC c = false := by
  by_contra h'
  have hw : isWsC c = true := by
    cases hiw : isWsC c
    · exact absurd hiw h'
    · rfl
  simp only [isWsC, Bool.or_eq_true, beq_iff_eq] at hw
  rcases hw with ((((hc | hc) | hc) | hc) | hc) | hc <;>
    · rw [hc] at h
      revert h
      decide

/-- Lists of non-whitespace characters are unchanged by `dropWhile`. -/
theorem dropWhile_of_no_ws (l : List Char) (h : ∀ c ∈ l, isWsC c = false) :
    l.dropWhile isWsC = l := by
  cases l with
  | nil => rfl
  | cons c cs =>
      have := h c (List.mem_cons_self c cs)
      simp [List.dropWhile, this]

/-- Strings of non-whitespace characters are unchanged by `strip`. -/
theorem pyStrip_of_no_ws (s : String) (h : ∀ c ∈ s.data, isWsC c = false) :
    pyStrip s = s := by
  have h1 : s.data.dropWhile isWsC = s.data := dropWhile_of_no_ws s.data h
  have h2 : s.data.reverse.dropWhile isWsC = s.data.reverse := by
    refine dropWhile_of_no_ws s.data.reverse (fun c hc => h c ?_)
    exact List.mem_reverse.mp hc
  cases s with
  | mk l =>
      simp only [pyStrip] at *
      rw [h1, h2, List.reverse_reverse]

/-- Every character of a regex-matching tag is in the tag character
class. -/
theorem tagReMatch_chars (s : String) (h : tagReMatch s = true) :
    ∀ c ∈ s.data, (c.isAlpha || isDigitC c || c == '.' || c == '_' || c == '-') = true := by
  intro c hc
  unfold tagReMatch at h
  cases hd : s.data with
  | nil => rw [hd] at hc; exact absurd hc (List.not_mem_nil c)
  | cons c0 cs =>
      rw [hd] at h hc
      simp only [Bool.and_eq_true, List.all_eq_true] at h
      rcases List.mem_cons.mp hc with hce | hcm
      · rw [hce]
        rcases Bool.or_eq_true_iff.mp h.1 with h' | h' <;> simp [h']
      · have := h.2 c hcm
        simp only [Bool.or_eq_true] at this ⊢
        tauto

/-- A regex-matching tag does not start with `#`. -/
theorem tagReMatch_not_hash (s : String) (h : tagReMatch s = true) :
    startsHash s = false := by
  unfold tagReMatch at h
  unfold startsHash
  cases hd : s.data with
  | nil => rfl
  | cons c0 cs =>
      rw [hd] at h
      simp only [Bool.and_eq_true] at h
      cases hc : c0 == '#'
      · simpa using hc
      · have hc0 : c0 = '#' := by simpa [beq_iff_eq] using hc
        have h1 := h.1
        rw [hc0] at h1
        exact absurd h1 (by decide)

/-- C9: tag-name validation accepts a string exactly when it matches
`^[A-Za-z0-9][A-Za-z0-9._-]*$` and is not all digits (this also rules
out `#`-plus-digits, embedded whitespace and surrounding whitespace);
`set_tag` rejects the same names before touching the tag map; the
spec's concrete examples behave as stated. -/
theorem C9_validate_tag_name :
    (∀ tag, validateTagName tag = .ok () ↔
        (tagReMatch tag = true ∧ pyIsdigit tag = false)) ∧
    (∀ idx tag rid force, ¬(tagReMatch tag = true ∧ pyIsdigit tag = false) →
        ∃ e, setTag idx tag rid force = .error e) ∧
    validateTagName "a.b-c_9" = .ok () ∧
    (∀ s ∈ (["123", "#3", " a", "a ", "a b", "a!"] : List String),
        ∃ e, validateTagName s = .error e) := by
  have hiff : ∀ tag, validateTagName tag = .ok () ↔
      (tagReMatch tag = true ∧ pyIsdigit tag = false) := by
    intro tag
    constructor
    · intro h
      by_cases g1 : (pyStrip tag != tag) = true
      · simp [validateTagName, g1] at h
      · by_cases g2 : hasWs tag = true
        · simp [validateTagName, g1, g2] at h
        · by_cases g3 : pyIsdigit tag = true
          · simp [validateTagName, g1, g2, g3] at h
          · by_cases g4 : (startsHash tag && pyIsdigit (strTail tag)) = true
            · simp [validateTagName, g1, g2, g3, g4] at h
            · by_cases g5 : tagReMatch tag = true
              · exact ⟨g5, Bool.eq_false_iff.mpr g3⟩
              · simp [validateTagName, g1, g2, g3, g4, g5] at h
    · rintro ⟨hre, hdig⟩
      have hchars := tagReMatch_chars tag hre
      have hnw : ∀ c ∈ tag.data, isWsC c = false :=
        fun c hc => charClass_not_ws c (hchars c hc)
      have g1 : (pyStrip tag != tag) = false := by
        simp [pyStrip_of_no_ws tag hnw]
      have g2 : hasWs tag = false := by
        unfold hasWs
        rw [List.any_eq_false]
        intro c hc
        simp [hnw c hc]
      have g4 : (startsHash tag && pyIsdigit (strTail tag)) = false := by
        simp [tagReMatch_not_hash tag hre]
      simp [validateTagName, g1, g2, hdig, g4, hre]
  refine ⟨hiff, ?_, ?_, ?_⟩
  · intro idx tag rid force h
    have hne : validateTagName tag ≠ .ok () := fun hok => h ((hiff tag).mp hok)
    cases hv : validateTagName tag with
    | ok u => cases u; exact absurd hv hne
    | error e => exact ⟨e, by simp [setTag, hv]⟩
  · rfl
  · intro s hs
    fin_cases hs <;> exact ⟨_, rfl⟩

/-- Witness for C9: the validator's verdict on concrete names, and
`set_tag` refusing an invalid name on a concrete catalog. -/
theorem C9_validate_tag_name_witness :
    validateTagName "a.b-c_9" = .ok () ∧
    (∃ e, validateTagName "#3" = .error e) ∧
    (∃ e, setTag cat2 "a b" runA1 false = .error e) := by
  refine ⟨C9_validate_tag_name.2.2.1, ?_, ?_⟩
  · exact C9_validate_tag_name.2.2.2 "#3" (by simp)
  · exact C9_validate_tag_name.2.1 cat2 "a b" runA1 false (by decide)

/-! Claim C6. -/

/-- C6: single-token resolution follows strict precedence on the
(already stripped) token: an existing filesystem entry is returned
verbatim even if it also names a tag or ordinal; otherwise an exact
tag match returns the aliased run id; otherwise `#N` or bare digits
go through `resolve_ordinal`; otherwise the token itself is the
fallback run id, unvalidated. -/
theorem C6_resolve_user_ref (fsx : String → Bool) (idx : IndexDB) (ref : String)
    (hstrip : pyStrip ref = ref) :
    (fsx ref = true → resolveUserRef fsx idx ref = .ok ref) ∧
    (fsx ref = false → ∀ rid, lookupTag idx.tags ref = some rid →
        resolveUserRef fsx idx ref = .ok rid) ∧
    (fsx ref = false → lookupTag idx.tags ref = none →
        (startsHash ref && pyIsdigit (strTail ref)) = true →
        resolveUserRef fsx idx ref =
          resolveOrdinal idx ((digitsToNat (strTail ref).data : Nat) : Int)) ∧
    (fsx ref = false → lookupTag idx.tags ref = none →
        (startsHash ref && pyIsdigit (strTail ref)) = false → pyIsdigit ref = true →
        resolveUserRef fsx idx ref =
          resolveOrdinal idx ((digitsToNat ref.data : Nat) : Int)) ∧
    (fsx ref = false → lookupTag idx.tags ref = none →
        (startsHash ref && pyIsdigit (strTail ref)) = false → pyIsdigit ref = false →
        resolveUserRef fsx idx ref = .ok ref) := by
  refine ⟨?_, ?_, ?_, ?_, ?_⟩
  · intro h
    simp [resolveUserRef, hstrip, h]
  · intro h rid htag
    simp [resolveUserRef, hstrip, h, htag]
  · intro h htag hord
    simp [resolveUserRef, hstrip, h, htag, hord]
  · intro h htag hord hdig
    simp [resolveUserRef, hstrip, h, htag, hord, hdig]
  · intro h htag hord hdig
    simp [resolveUserRef, hstrip, h, htag, hord, hdig]

/-- Witness for C6: each grammar tier on a concrete catalog — path,
tag, `#N` ordinal, and raw-id fallback. -/
theorem C6_resolve_user_ref_witness :
    resolveUserRef fsx6 idx6 "/data/f.txt" = .ok "/data/f.txt" ∧
    resolveUserRef fsx6 idx6 "baseline" = .ok runA1 ∧
    resolveUserRef fsx6 idx6 "#2" = .ok runB2 ∧
    resolveUserRef fsx6 idx6 "zzz" = .ok "zzz" := by
  refine ⟨?_, ?_, ?_, ?_⟩
  · exact (C6_resolve_user_ref fsx6 idx6 "/data/f.txt" (by decide)).1 (by decide)
  · exact (C6_resolve_user_ref fsx6 idx6 "baseline" (by decide)).2.1 (by decide) runA1 (by decide)
  · exact ((C6_resolve_user_ref fsx6 idx6 "#2" (by decide)).2.2.1 (by decide) (by decide)
      (by decide)).trans rfl
  · exact (C6_resolve_user_ref fsx6 idx6 "zzz" (by decide)).2.2.2.2 (by decide) (by decide)
      (by decide) (by decide)

/-- C4 counterexample: rule 1 does not apply (neither token is
ordinal-shaped), token X = `"foo"` is an existing tag and token
Y = `rid4` is run-resolvable and explicit-run-ish, so the claim demands
the accepted pair `(run = rid4, tag = "foo")`; but `rid4` is itself
also an existing tag, the source checks the other orientation first,
`"foo"` is not explicit-run-ish, and the call instead fails Ambiguous. -/
theorem C4_counterexample :
    (mkArgInfo tags4 allTrue allTrue rid4).is_ordinal = false ∧
    (mkArgInfo tags4 allTrue allTrue "foo").is_ordinal = false ∧
    (mkArgInfo tags4 allTrue allTrue "foo").existing_tag = true ∧
    (mkArgInfo tags4 allTrue allTrue rid4).run_ok = true ∧
    (mkArgInfo tags4 allTrue allTrue rid4).explicit_runish = true ∧
    (mkArgInfo tags4 allTrue allTrue rid4).raw = rid4 ∧
    (mkArgInfo tags4 allTrue allTrue "foo").raw = "foo" ∧
    resolveTagArgs tags4 allTrue allTrue rid4 "foo" =
      .error (.ambiguity (ambigMsg rid4 "foo")) ∧
    resolveTagArgs tags4 allTrue allTrue rid4 "foo" ≠ .ok (rid4, "foo") := by
  refine ⟨rfl, rfl, rfl, rfl, rfl, rfl, rfl, rfl, ?_⟩
  intro h
  rw [show resolveTagArgs tags4 allTrue allTrue rid4 "foo" =
      .error (.ambiguity (ambigMsg rid4 "foo")) from rfl] at h
  exact Except.noConfusion h

/-- C4 as amended: in the region where rule 1 does not apply, the
existing-tag/run-resolvable rule behaves as claimed, with the proviso
that the source checks the (first token as tag) orientation first, so
the second orientation is only reached when the first one's guard does
not hold. -/
theorem C4_amended (existingTags tagOk runOk : String → Bool) (a b : String)
    (hOrd : (mkArgInfo existingTags tagOk runOk a).is_ordinal
          = (mkArgInfo existingTags tagOk runOk b).is_ordinal) :
    ((mkArgInfo existingTags tagOk runOk a).existing_tag = true →
     (mkArgInfo existingTags tagOk runOk b).run_ok = true →
     resolveTagArgs existingTags tagOk runOk a b =
       (if (mkArgInfo existingTags tagOk runOk b).explicit_runish then
          .ok ((mkArgInfo existingTags tagOk runOk b).raw,
               (mkArgInfo existingTags tagOk runOk a).raw)
        else
          .error (.ambiguity (ambigMsg (mkArgInfo existingTags tagOk runOk a).raw
                                       (mkArgInfo existingTags tagOk runOk b).raw)))) ∧
    ((mkArgInfo existingTags tagOk runOk b).existing_tag = true →
     (mkArgInfo existingTags tagOk runOk a).run_ok = true →
     ¬((mkArgInfo existingTags tagOk runOk a).existing_tag = true ∧
       (mkArgInfo existingTags tagOk runOk b).run_ok = true) →
     resolveTagArgs existingTags tagOk runOk a b =
       (if (mkArgInfo existingTags tagOk runOk a).explicit_runish then
          .ok ((mkArgInfo existingTags tagOk runOk a).raw,
               (mkArgInfo existingTags tagOk runOk b).raw)
        else
          .error (.ambiguity (ambigMsg (mkArgInfo existingTags tagOk runOk b).raw
                                       (mkArgInfo existingTags tagOk runOk a).raw)))) := by
  constructor
  · intro hA hB
    simp only [resolveTagArgs, hOrd, hA, hB, Bool.and_not_self, Bool.false_eq_true,
      if_false, Bool.and_self, Bool.and_true, Bool.true_and, if_true]
  · intro hB hA hnot
    have hguard : ((mkArgInfo existingTags tagOk runOk a).existing_tag &&
        (mkArgInfo existingTags tagOk runOk b).run_ok) = false := by
      cases hx : (mkArgInfo existingTags tagOk runOk a).existing_tag
      · simp
      · cases hy : (mkArgInfo existingTags tagOk runOk b).run_ok
        · simp
        · exact absurd ⟨hx, hy⟩ hnot
    simp only [resolveTagArgs, hOrd, hA, hB, hguard, Bool.and_not_self, Bool.false_eq_true,
      if_false, Bool.and_self, Bool.and_true, Bool.true_and, if_true]

/-- Witness for the amended C4: with `foo` the only existing tag and a
run-id-shaped other token, the second orientation accepts
`(run = rid4, tag = "foo")`. -/
theorem C4_amended_witness :
    resolveTagArgs tags4b allTrue allTrue rid4 "foo" = .ok (rid4, "foo") := by
  have h := (C4_amended tags4b allTrue allTrue rid4 "foo" (by decide)).2
    (by decide) (by decide) (by decide)
  rw [h]
  rfl

/-! Claim C5. -/

/-- C5: when either loaded run lacks a git snapshot, the git comparison
is defined as not-changed with a single reason naming the missing side
(A, B, or both), and a `false` git flag never contributes to
`any_changed`. -/
theorem C5_git_missing :
    (∀ d : RunData, jget d "git" = none → (gitFingerprint d).recorded = false) ∧
    (∀ a b : GitFp, a.recorded = false ∨ b.recorded = false →
      (gitChangedF a b).1 = false ∧
      (gitChangedF a b).2 =
        [if a.recorded = false ∧ b.recorded = false then "not recorded (A, B)"
         else if a.recorded = false then "not recorded (A)"
         else "not recorded (B)"]) ∧
    (∀ truth dout env warn, anyChangedF truth dout env warn false =
      (truth || !dout.added.isEmpty || !dout.removed.isEmpty ||
        !dout.changed.isEmpty || env || warn)) := by
  refine ⟨?_, ?_, ?_⟩
  · intro d h
    unfold gitFingerprint
    rw [h]
  · intro a b h
    cases ha : a.recorded <;> cases hb : b.recorded
    · exact ⟨by simp [gitChangedF, ha, hb], by simp [gitChangedF, ha, hb]⟩
    · exact ⟨by simp [gitChangedF, ha, hb], by simp [gitChangedF, ha, hb]⟩
    · exact ⟨by simp [gitChangedF, ha, hb], by simp [gitChangedF, ha, hb]⟩
    · rw [ha, hb] at h
      rcases h with h | h <;> exact absurd h (by simp)
  · intro truth dout env warn
    simp [anyChangedF]

/-- Witness for C5: concrete pair with git missing on side A only. -/
theorem C5_git_missing_witness :
    (gitChangedF (gitFingerprint dA5) (gitFingerprint dB5)).1 = false ∧
    (gitChangedF (gitFingerprint dA5) (gitFingerprint dB5)).2 = ["not recorded (A)"] := by
  have h1 : (gitFingerprint dA5).recorded = false := C5_git_missing.1 dA5 rfl
  have h := C5_git_missing.2.1 (gitFingerprint dA5) (gitFingerprint dB5) (Or.inl h1)
  have hb : (gitFingerprint dB5).recorded = true := rfl
  refine ⟨h.1, ?_⟩
  rw [h.2]
  simp [h1, hb]

/-! Claim C3. -/

/-- C3: for every pair of loaded runs, `truth_changed` holds exactly
when the inputs diff has a non-empty added/removed/changed list or the
params fingerprints differ, and `any_changed` holds exactly when
`truth_changed` or the outputs diff is non-empty or the environment
pair differs or the normalized warning lists differ or git is
classified changed. -/
theorem C3_truth_any (da db : RunData) :
    (diffRunsResult da db).truthChanged =
      (!(diffRunsResult da db).inputs.added.isEmpty ||
       !(diffRunsResult da db).inputs.removed.isEmpty ||
       !(diffRunsResult da db).inputs.changed.isEmpty ||
       !(paramsFingerprint da == paramsFingerprint db)) ∧
    (diffRunsResult da db).anyChanged =
      ((diffRunsResult da db).truthChanged ||
       !(diffRunsResult da db).outputs.added.isEmpty ||
       !(diffRunsResult da db).outputs.removed.isEmpty ||
       !(diffRunsResult da db).outputs.changed.isEmpty ||
       !(envFingerprint da == envFingerprint db) ||
       !(warningsList da == warningsList db) ||
       (gitChangedF (gitFingerprint da) (gitFingerprint db)).1) ∧
    (diffRunsResult da db).inputs =
      diffHashmaps (fingerprintMap da "inputs") (fingerprintMap db "inputs") ∧
    (diffRunsResult da db).outputs =
      diffHashmaps (fingerprintMap da "outputs") (fingerprintMap db "outputs") ∧
    (diffRunsResult da db).paramsChanged =
      !(paramsFingerprint da == paramsFingerprint db) ∧
    (diffRunsResult da db).envChanged = !(envFingerprint da == envFingerprint db) ∧
    (diffRunsResult da db).warningsChanged = !(warningsList da == warningsList db) ∧
    (diffRunsResult da db).gitChanged =
      (gitChangedF (gitFingerprint da) (gitFingerprint db)).1 :=
  ⟨rfl, rfl, rfl, rfl, rfl, rfl, rfl, rfl⟩

/-! Claim C7. -/

theorem contains_of_mem (l : List String) (a : String) (h : a ∈ l) :
    l.contains a = true := by
  simpa using h

theorem mem_dedupKeys (l : List String) (a : String) (h : a ∈ dedupKeys l) : a ∈ l := by
  induction l with
  | nil => simpa [dedupKeys] using h
  | cons x xs ih =>
      by_cases hc : xs.contains x
      · simp only [dedupKeys, hc, if_pos] at h
        exact List.mem_cons_of_mem x (ih h)
      · simp only [dedupKeys, hc, if_neg, Bool.false_eq_true, not_false_iff] at h
        rcases List.mem_cons.mp h with rfl | h'
        · exact List.mem_cons_self a xs
        · exact List.mem_cons_of_mem x (ih h')

/-- Diffing a hash map against itself yields no added, removed or
changed paths. -/
theorem diffHashmaps_self (m : List (String × String)) :
    (diffHashmaps m m).added = [] ∧ (diffHashmaps m m).removed = [] ∧
    (diffHashmaps m m).changed = [] := by
  have hnil : (dedupKeys (keysOf m)).filter (fun k => !(keysOf m).contains k) = [] := by
    rw [List.filter_eq_nil_iff]
    intro a ha
    simpa using mem_dedupKeys (keysOf m) a ha
  refine ⟨?_, ?_, ?_⟩
  · show sortBy leStr ((dedupKeys (keysOf m)).filter (fun k => !(keysOf m).contains k)) = []
    rw [hnil]
    rfl
  · show sortBy leStr ((dedupKeys (keysOf m)).filter (fun k => !(keysOf m).contains k)) = []
    rw [hnil]
    rfl
  · show (sortBy leStr ((dedupKeys (keysOf m)).filter (fun k => (keysOf m).contains k))).filter
        (fun k => !(lookupStr m k == lookupStr m k)) = []
    rw [List.filter_eq_nil_iff]
    intro a _
    simp

/-- Comparing a git fingerprint against itself is never a change. -/
theorem gitChangedF_self (g : GitFp) : (gitChangedF g g).1 = false := by
  cases hr : g.recorded
  · simp [gitChangedF, hr]
  · cases hi : g.is_repo
    · simp [gitChangedF, hr, hi]
    · simp [gitChangedF, hr, hi, jeq_refl]

/-- C7: diffing a run record against itself yields empty
added/removed/changed lists for inputs and outputs, and both
`truth_changed` and `any_changed` are false. (The hypothesis restricts
to well-shaped run documents, the domain on which the embedding is
faithful; the source raises on other shapes instead of diffing.) -/
theorem C7_diff_idempotent (d : RunData) (h : runWF d = true) :
    (diffRunsResult d d).inputs.added = [] ∧
    (diffRunsResult d d).inputs.removed = [] ∧
    (diffRunsResult d d).inputs.changed = [] ∧
    (diffRunsResult d d).outputs.added = [] ∧
    (diffRunsResult d d).outputs.removed = [] ∧
    (diffRunsResult d d).outputs.changed = [] ∧
    (diffRunsResult d d).truthChanged = false ∧
    (diffRunsResult d d).anyChanged = false := by
  obtain ⟨hia, hir, hic⟩ := diffHashmaps_self (fingerprintMap d "inputs")
  obtain ⟨hoa, hor, hoc⟩ := diffHashmaps_self (fingerprintMap d "outputs")
  have htruth : (diffRunsResult d d).truthChanged = false := by
    show truthChangedF (diffHashmaps (fingerprintMap d "inputs") (fingerprintMap d "inputs"))
      (!(paramsFingerprint d == paramsFingerprint d)) = false
    unfold truthChangedF
    rw [hia, hir, hic]
    simp
  have hany : (diffRunsResult d d).anyChanged = false := by
    show anyChangedF (diffRunsResult d d).truthChanged
      (diffHashmaps (fingerprintMap d "outputs") (fingerprintMap d "outputs"))
      (!(envFingerprint d == envFingerprint d))
      (!(warningsList d == warningsList d))
      (gitChangedF (gitFingerprint d) (gitFingerprint d)).1 = false
    unfold anyChangedF
    rw [hoa, hor, hoc, htruth, gitChangedF_self]
    simp
  exact ⟨hia, hir, hic, hoa, hor, hoc, htruth, hany⟩

/-- Witness for C7 on a concrete fully-populated run. -/
theorem C7_diff_idempotent_witness :
    runWF d7 = true ∧
    (diffRunsResult d7 d7).truthChanged = false ∧
    (diffRunsResult d7 d7).anyChanged = false ∧
    (diffRunsResult d7 d7).inputs.added = [] := by
  have h := C7_diff_idempotent d7 (by decide)
  exact ⟨by decide, h.2.2.2.2.2.2.1, h.2.2.2.2.2.2.2, h.1⟩

/-- C10: the diff engine treats a malformed `params` field exactly like
an absent one — every degenerate shape fingerprints to `None`, so
diffing two such runs reports `params changed = false` and params never
contributes to `truth_changed`. -/
theorem C10_params_degenerate :
    (∀ d : RunData, specParamsDegenerate d = true → paramsFingerprint d = none) ∧
    (∀ da db : RunData, specParamsDegenerate da = true → specParamsDegenerate db = true →
      (diffRunsResult da db).paramsChanged = false ∧
      (diffRunsResult da db).truthChanged =
        (!(diffRunsResult da db).inputs.added.isEmpty ||
         !(diffRunsResult da db).inputs.removed.isEmpty ||
         !(diffRunsResult da db).inputs.changed.isEmpty)) := by
  have h1 : ∀ d : RunData, specParamsDegenerate d = true → paramsFingerprint d = none := by
    intro d h
    cases hv : jget d "params" with
    | none => simp [paramsFingerprint, hv]
    | some v =>
        have hsd : specParamsDegenerate d = degenBody v := by
          simp only [specParamsDegenerate, hv]
        rw [hsd] at h
        cases ht : jtruthy v
        · simp [paramsFingerprint, hv, ht]
        · cases v with
          | jobj kvs =>
              have hb : degenBody (JVal.jobj kvs) =
                  (!jtruthy (JVal.jobj kvs) || (jget kvs "hash").isNone) := rfl
              rw [hb, ht] at h
              simp only [Bool.not_true, Bool.false_or, Option.isNone_iff_eq_none] at h
              simp [paramsFingerprint, hv, ht, h]
          | jnull => simp [jtruthy] at ht
          | jbool b => simp [paramsFingerprint, hv, ht]
          | jnum n => simp [paramsFingerprint, hv, ht]
          | jstr s => simp [paramsFingerprint, hv, ht]
          | jarr xs => simp [paramsFingerprint, hv, ht]
  refine ⟨h1, ?_⟩
  intro da db ha hb
  have hpc : (diffRunsResult da db).paramsChanged = false := by
    have hd : (diffRunsResult da db).paramsChanged =
        !(paramsFingerprint da == paramsFingerprint db) := rfl
    rw [hd, h1 da ha, h1 db hb]
    rfl
  refine ⟨hpc, ?_⟩
  have ht : (diffRunsResult da db).truthChanged =
      (!(diffRunsResult da db).inputs.added.isEmpty ||
       !(diffRunsResult da db).inputs.removed.isEmpty ||
       !(diffRunsResult da db).inputs.changed.isEmpty ||
       (diffRunsResult da db).paramsChanged) := rfl
  rw [ht, hpc]
  simp

/-- Witness for C10: one run with no params field, one with a params
object lacking `hash`: both fingerprint to `None` and params is not
reported changed. -/
theorem C10_params_degenerate_witness :
    paramsFingerprint dA10 = none ∧
    paramsFingerprint dB10 = none ∧
    (diffRunsResult dA10 dB10).paramsChanged = false := by
  refine ⟨C10_params_degenerate.1 dA10 (by decide),
          C10_params_degenerate.1 dB10 (by decide),
          (C10_params_degenerate.2 dA10 dB10 (by decide) (by decide)).1⟩

/-- C1: concrete refutation of the lexical tie-break — both entries
parse to the same timestamp, yet the result lists `b` before `a`. -/
theorem C1_ordered_run_ids_counterexample :
    sortableEntries c1ex.runs =
      [(1767225600000000, "b"), (1767225600000000, "a")] ∧
    orderedRunIds c1ex = ["b", "a"] ∧
    ¬ (("b" : String) ≤ "a") := by
  refine ⟨rfl, rfl, ?_⟩
  rw [String.le_iff_toList_le]
  decide

/-- C1 (amended): `ordered_run_ids` returns the run ids of exactly the
parsable entries, in an order non-decreasing by parsed timestamp; ties
keep the catalog's original entry order (the sort is stable), not the
claimed lexical run-id order; malformed entries are silently excluded. -/
theorem C1_ordered_run_ids_amended (idx : IndexDB) :
    orderedRunIds idx = (sortBy leTsKey (sortableEntries idx.runs)).map Prod.snd ∧
    (sortBy leTsKey (sortableEntries idx.runs)).Pairwise
      (fun p q => (p.1 : Int) ≤ q.1) ∧
    List.Perm (sortBy leTsKey (sortableEntries idx.runs)) (sortableEntries idx.runs) ∧
    (∀ k : Int, (sortBy leTsKey (sortableEntries idx.runs)).filter (fun p => p.1 == k) =
      (sortableEntries idx.runs).filter (fun p => p.1 == k)) ∧
    (∀ rid : String, rid ∈ orderedRunIds idx ↔
      ∃ p ∈ sortableEntries idx.runs, p.2 = rid) := by
  have htot : ∀ a b : Int × String, leTsKey a b = true ∨ leTsKey b a = true := by
    intro a b
    simp only [leTsKey, decide_eq_true_eq]
    omega
  have htrans : ∀ a b c : Int × String,
      leTsKey a b = true → leTsKey b c = true → leTsKey a c = true := by
    intro a b c
    simp only [leTsKey, decide_eq_true_eq]
    omega
  refine ⟨rfl, ?_, perm_sortBy leTsKey (sortableEntries idx.runs), ?_, ?_⟩
  · exact (pairwise_sortBy leTsKey htot htrans (sortableEntries idx.runs)).imp
      (fun h => by simpa [leTsKey] using h)
  · intro k
    refine filter_sortBy leTsKey (fun p => p.1 == k) (sortableEntries idx.runs) ?_
    intro x y hx hy
    simp only [beq_iff_eq] at hx hy
    simp [leTsKey, hx, hy]
  · intro rid
    unfold orderedRunIds
    rw [List.mem_map]
    constructor
    · rintro ⟨p, hp, hrid⟩
      exact ⟨p, (perm_sortBy leTsKey (sortableEntries idx.runs)).mem_iff.mp hp, hrid⟩
    · rintro ⟨p, hp, hrid⟩
      exact ⟨p, (perm_sortBy leTsKey (sortableEntries idx.runs)).mem_iff.mpr hp, hrid⟩

/-- Witness for the amended C1 on the concrete two-run catalog. -/
theorem C1_ordered_run_ids_amended_witness :
    orderedRunIds cat2 = [runA1, runB2] ∧
    (runA1 ∈ orderedRunIds cat2 ↔ ∃ p ∈ sortableEntries cat2.runs, p.2 = runA1) := by
  refine ⟨?_, (C1_ordered_run_ids_amended cat2).2.2.2.2 runA1⟩
  rw [(C1_ordered_run_ids_amended cat2).1]
  rfl

/-- C2: failing input for the no-silent-self-diff guarantee. With runs
`[runA1, runB2]` (latest `runB2`) and one token that is an existing
path inside the latest run's tree, the token denotes the latest run
(`run_id_from_ref` maps both it and `runB2` to `runB2`), yet
`resolve_run_pair` — which guards only with `Path(a_resolved).name`,
here `"run.json"` — returns `(token, runB2)` instead of the claimed
`(runA1, runB2)`: both sides of the returned pair denote the same run. -/
theorem C2_pair_self_diff_bug :
    orderedRunIds cat2 = [runA1, runB2] ∧
    resolveRunPair fs2 cat2 (some token2) none = .ok (token2, runB2) ∧
    runIdFromRef fs2 provDir2 cat2 token2 = .ok runB2 ∧
    runIdFromRef fs2 provDir2 cat2 runB2 = .ok runB2 ∧
    resolveRunPair fs2 cat2 (some token2) none ≠ .ok (runA1, runB2) := by
  refine ⟨rfl, rfl, rfl, rfl, ?_⟩
  intro hcontr
  rw [show resolveRunPair fs2 cat2 (some token2) none = .ok (token2, runB2) from rfl] at hcontr
  have hpair := Except.ok.inj hcontr
  have hfst : token2 = runA1 := congrArg Prod.fst hpair
  exact absurd hfst (by decide)
